import Mathlib

/-!
Shallow embedding of the gocryptfs excerpt: the reverse-mode overlay
(internal/fusefrontend_reverse/rfs.go) and the config load / password change
entry points (main.go). Pure Lean translations of the Go functions, with the
repository code that lies outside the excerpt (name transform, content size
arithmetic, config file cryptography) modelled from the specification and the
host environment (loopback filesystem, syscalls) kept as explicit parameters.
-/

namespace Gocryptfs

/-- FUSE status codes as used by rfs.go (fuse.OK, fuse.EPERM, fuse.ENOTDIR, ...). -/
inductive Status where
  | OK
  | EPERM
  | ENOENT
  | ENOTDIR
  | EACCES
  | EIO
  deriving Repr, DecidableEq

/-- The go-fuse attribute record fields that rfs.go reads or writes. -/
structure Attr where
  ino : Nat
  size : Nat
  blocks : Nat
  atime : Nat
  mtime : Nat
  ctime : Nat
  mode : Nat
  nlink : Nat
  uid : Nat
  gid : Nat
  rdev : Nat
  deriving Repr, DecidableEq

/-- A directory entry as in go-fuse: a mode and a name. -/
structure DirEntry where
  mode : Nat
  name : String
  deriving Repr, DecidableEq

/-- syscall.S_IFMT, the file type mask 0o170000. -/
def S_IFMT : Nat := 61440

/-- syscall.S_IFDIR, 0o040000. -/
def S_IFDIR : Nat := 16384

/-- syscall.S_IFREG, 0o100000. -/
def S_IFREG : Nat := 32768

/-- syscall.S_IXUSR, owner execute bit 0o100. -/
def S_IXUSR : Nat := 64

/-- Attr.IsDir from go-fuse: the type bits equal S_IFDIR. -/
def attrIsDir (a : Attr) : Bool := Nat.land a.mode S_IFMT == S_IFDIR

/-- Attr.IsRegular from go-fuse: the type bits equal S_IFREG. -/
def attrIsRegular (a : Attr) : Bool := Nat.land a.mode S_IFMT == S_IFREG

/-- Modelled from the spec: the directory IV file has a fixed well known
filename (nametransform.DirIVFilename, outside the excerpt); rfs.go names
gocryptfs.diriv in the comment and debug output of its GetAttr branch. -/
def DirIVFilename : String := "gocryptfs.diriv"

/-- Modelled from the spec: the directory IV is a fixed 16 byte value
(nametransform.DirIVLen, outside the excerpt). -/
def DirIVLen : Nat := 16

/-- DirIVMode = syscall.S_IFREG | 0400 from rfs.go. -/
def DirIVMode : Nat := Nat.lor S_IFREG 256

/-- Model of Go strings.HasSuffix on the character sequence. -/
def goHasSuffix (s sfx : String) : Bool := List.isSuffixOf sfx.data s.data

/-- Model of the Go function path.Dir on the clean relative paths FUSE hands in:
everything before the last slash, or "." when there is no slash. -/
def pathDir (p : String) : String :=
  match p.data.reverse.dropWhile (fun c => c != '/') with
  | [] => "."
  | _ :: rest => String.mk rest.reverse

/-- Modelled from the spec: ContentCodec block size (contentenc, outside the
excerpt). -/
def BlockSize : Nat := 4096

/-- Modelled from the spec: per block nonce plus tag overhead (contentenc,
outside the excerpt). -/
def BlockOverhead : Nat := 28

/-- Modelled from the spec: file header length (contentenc, outside the
excerpt). -/
def HeaderLen : Nat := 18

/-- Modelled from the spec: ContentCodec.PlainToCipherSize, the ciphertext size
m = headerSize + ceil(n / blockSize) * (blockSize + overheadPerBlock). -/
def plainSizeToCipherSize (n : Nat) : Nat :=
  HeaderLen + ((n + BlockSize - 1) / BlockSize) * (BlockSize + BlockOverhead)

/-- cryptfs.ConfDefaultName, the well known config filename at the tree root. -/
def ConfDefaultName : String := "gocryptfs.conf"

/-- Modelled from the spec: the exclusion policy (rfs.isFiltered, outside the
excerpt) hides the system config file at the tree root. -/
def isFiltered (p : String) : Bool := p == ConfDefaultName

/-- Environment of reverseFS: the path transform helpers decryptPath and
encryptPath (repository code outside the excerpt), the loopback filesystem,
rfs.abs, syscall.Access and os.OpenFile. Errors are already mapped to Status
as fuse.ToStatus would. The open handle is an abstract Nat token chosen by the
environment. -/
structure ReverseFSModel where
  decryptPath : String → Except Status String
  encryptPath : String → Except Status String
  loopbackGetAttr : String → Except Status Attr
  loopbackOpenDir : String → Except Status (List DirEntry)
  absPath : String → String
  sysAccess : String → Nat → Status
  osOpenFile : String → Nat → Except Status Nat

/-- The parent directory computed by the gocryptfs.diriv branch of GetAttr:
cDir := path.Dir(relPath), with "." replaced by the empty string. -/
def dirIVParent (relPath : String) : String :=
  let cDir := pathDir relPath
  if cDir == "." then "" else cDir

/-- The gocryptfs.diriv branch of reverseFS.GetAttr (rfs.go lines 55 to 92):
decrypt the parent path, require the parent to exist, be a directory and carry
the owner execute bit, then fake a regular read only file of the IV length. -/
def getAttrDirIV (m : ReverseFSModel) (relPath : String) : Except Status Attr :=
  match m.decryptPath (dirIVParent relPath) with
  | .error e => .error e
  | .ok dir =>
    match m.loopbackGetAttr dir with
    | .error s => .error s
    | .ok a =>
      if !attrIsDir a then .error .ENOTDIR
      else if Nat.land a.mode S_IXUSR == 0 then .error .EPERM
      else .ok { a with mode := DirIVMode, size := DirIVLen, nlink := 1 }

/-- reverseFS.GetAttr (rfs.go lines 53 to 110). -/
def reverseGetAttr (m : ReverseFSModel) (relPath : String) : Except Status Attr :=
  if relPath == DirIVFilename || goHasSuffix relPath DirIVFilename then
    getAttrDirIV m relPath
  else if isFiltered relPath then .error .EPERM
  else
    match m.decryptPath relPath with
    | .error e => .error e
    | .ok p =>
      match m.loopbackGetAttr p with
      | .error s => .error s
      | .ok a =>
        if attrIsRegular a then .ok { a with size := plainSizeToCipherSize a.size }
        else .ok a

/-- reverseFS.Access (rfs.go lines 112 to 121): note that it encrypts the
incoming path before handing it to syscall.Access. -/
def reverseAccess (m : ReverseFSModel) (relPath : String) (mode : Nat) : Status :=
  if isFiltered relPath then .EPERM
  else
    match m.encryptPath relPath with
    | .error e => e
    | .ok c => m.sysAccess (m.absPath c) mode

/-- Modelled from the spec: the Access behaviour the specification describes,
translating the incoming path with the same direction (decryptPath) that
GetAttr and Open use, then passing the check through. Stated only to be
compared against reverseAccess. -/
def specAccess (m : ReverseFSModel) (relPath : String) (mode : Nat) : Status :=
  if isFiltered relPath then .EPERM
  else
    match m.decryptPath relPath with
    | .error e => e
    | .ok c => m.sysAccess (m.absPath c) mode

/-- reverseFS.Open (rfs.go lines 123 to 136): the caller flags are handed to
os.OpenFile unchanged. -/
def reverseOpen (m : ReverseFSModel) (relPath : String) (flags : Nat) : Except Status Nat :=
  if isFiltered relPath then .error .EPERM
  else
    match m.decryptPath relPath with
    | .error e => .error e
    | .ok p => m.osOpenFile (m.absPath p) flags

/-- The name encryption loop of reverseFS.OpenDir (rfs.go lines 149 to 154):
encrypt every entry name in place, stopping at the first failure. -/
def encryptEntries (m : ReverseFSModel) : List DirEntry → Except Status (List DirEntry)
  | [] => .ok []
  | e :: rest =>
    match m.encryptPath e.name with
    | .error s => .error s
    | .ok n =>
      match encryptEntries m rest with
      | .error s => .error s
      | .ok rs => .ok ({ e with name := n } :: rs)

/-- reverseFS.OpenDir (rfs.go lines 138 to 158): decrypt the path, list the
plaintext directory, encrypt the names, append the virtual gocryptfs.diriv
entry. -/
def reverseOpenDir (m : ReverseFSModel) (relPath : String) : Except Status (List DirEntry) :=
  match m.decryptPath relPath with
  | .error e => .error e
  | .ok p =>
    match m.loopbackOpenDir p with
    | .error s => .error s
    | .ok entries =>
      match encryptEntries m entries with
      | .error s => .error s
      | .ok es => .ok (es ++ [{ mode := DirIVMode, name := DirIVFilename }])

/-- cryptfs.ConfFile, symbolically: the scrypt salt, the key the master key is
wrapped under (standing for the authenticated encryption), and the wrapped
master key payload. -/
structure ConfFile where
  scryptSalt : Nat
  wrappedKek : Nat
  wrappedMk : Nat
  deriving Repr, DecidableEq

/-- Modelled from the spec: KeyDerivation turns a password plus the stored salt
into a key wrapping key; the injective pairing stands for the derivation. -/
def deriveKek (password salt : Nat) : Nat := Nat.pair password salt

/-- Modelled from the spec: the authenticated unwrap of the master key; any
failure reports uniformly as WrongPassword. -/
def decryptKey (cf : ConfFile) (password : Nat) : Except String Nat :=
  if cf.wrappedKek == deriveKek password cf.scryptSalt then .ok cf.wrappedMk
  else .error "WrongPassword"

/-- Modelled from the spec: cryptfs.LoadConfFile, re-deriving the wrapping key
and attempting the authenticated unwrap. -/
def loadConfFile (cf : ConfFile) (password : Nat) : Except String (Nat × ConfFile) :=
  match decryptKey cf password with
  | .error e => .error e
  | .ok mk => .ok (mk, cf)

/-- Modelled from the spec: ConfFile.EncryptKey derives a fresh salt and wraps
the given master key under the key derived from the new password. -/
def encryptKey (cf : ConfFile) (mk password freshSalt : Nat) : ConfFile :=
  { cf with scryptSalt := freshSalt
          , wrappedKek := deriveKek password freshSalt
          , wrappedMk := mk }

/-- Outcome of loadConfig in main.go: either os.Exit with the lines printed on
the way out, or success with the printed lines, master key and config. -/
inductive LoadOutcome where
  | exited (output : List String) (code : Nat)
  | ok (output : List String) (mk : Nat) (cf : ConfFile)
  deriving Repr, DecidableEq

/-- Exit code ERREXIT_LOADCONF from main.go. -/
def ERREXIT_LOADCONF : Nat := 8

/-- loadConfig from main.go (part_000 lines 76 to 97): stat the file before
prompting; on stat failure print only the stat error and exit; otherwise prompt,
attempt the unwrap, and on failure print the error plus the fixed wrong
password line and exit with the same code. -/
def loadConfig (file : Option ConfFile) (password : Nat) : LoadOutcome :=
  match file with
  | none => .exited ["no such file or directory"] ERREXIT_LOADCONF
  | some cf =>
    match loadConfFile cf password with
    | .error e =>
      .exited ["Password: ", "Decrypting master key... ", e, "Wrong password."] ERREXIT_LOADCONF
    | .ok (mk, cf2) => .ok ["Password: ", "Decrypting master key... ", "done."] mk cf2

/-- changePassword from main.go (part_000 lines 100 to 112): load with the old
password, wrap the recovered master key under the new password, write the file
back; none models the os.Exit paths where no new file is written. -/
def changePassword (file : Option ConfFile) (oldPw newPw freshSalt : Nat) : Option ConfFile :=
  match loadConfig file oldPw with
  | .exited _ _ => none
  | .ok _ mk cf => some (encryptKey cf mk newPw freshSalt)

/-! Concrete environments used by witnesses and counterexamples. -/

/-- A directory attribute record: mode 0o40755, owned by uid and gid 1000. -/
def rootAttr : Attr := ⟨1, 4096, 8, 100, 101, 102, 16877, 3, 1000, 1000, 0⟩

/-- A regular file attribute record: mode 0o100644, plaintext size 1000. -/
def fileAttr : Attr := ⟨2, 1000, 8, 200, 201, 202, 33188, 1, 1000, 1000, 0⟩

/-- A subdirectory attribute record: mode 0o40755. -/
def subAttr : Attr := ⟨3, 4096, 8, 300, 301, 302, 16877, 2, 1000, 1000, 0⟩

/-- The attribute record of the config file in the counterexample tree:
regular, plaintext size 300. -/
def confAttr : Attr := ⟨5, 300, 8, 50, 51, 52, 33188, 1, 0, 0, 0⟩

/-- A small concrete environment: path decryption is the identity, name
encryption prepends the letter E, and the plaintext tree holds a regular file
a.txt and a subdirectory sub under an executable root. -/
def Wfs : ReverseFSModel where
  decryptPath s := .ok s
  encryptPath s := .ok (String.append "E" s)
  loopbackGetAttr p :=
    if p == "" then .ok rootAttr
    else if p == "a.txt" then .ok fileAttr
    else if p == "sub" then .ok subAttr
    else .error .ENOENT
  loopbackOpenDir p :=
    if p == "" then .ok [⟨33188, "a.txt"⟩, ⟨16877, "sub"⟩]
    else .error .ENOENT
  absPath s := String.append "/abs/" s
  sysAccess _ _ := .OK
  osOpenFile _ _ := .ok 7

/-- Counterexample environment for the exclusion claim: the plaintext root
holds the excluded gocryptfs.conf; decryptPath drops the leading E that
encryptPath prepends, so the encrypted view can resolve listed names. -/
def CM : ReverseFSModel where
  decryptPath s := .ok (String.mk (s.data.drop 1))
  encryptPath s := .ok (String.append "E" s)
  loopbackGetAttr p :=
    if p == "" then .ok rootAttr
    else if p == "gocryptfs.conf" then .ok confAttr
    else .error .ENOENT
  loopbackOpenDir p :=
    if p == "" then .ok [⟨33188, "gocryptfs.conf"⟩]
    else .error .ENOENT
  absPath s := s
  sysAccess _ _ := .OK
  osOpenFile _ _ := .ok 1

/-- Environment exhibiting the translation direction of Access: decryptPath
prepends D, encryptPath prepends E, and the underlying access check grants
only the path that the decrypt direction would produce for the name a. -/
def M5 : ReverseFSModel where
  decryptPath s := .ok (String.append "D" s)
  encryptPath s := .ok (String.append "E" s)
  loopbackGetAttr _ := .error .ENOENT
  loopbackOpenDir _ := .error .ENOENT
  absPath s := String.append "/abs/" s
  sysAccess p _ := if p == "/abs/Da" then .OK else .EACCES
  osOpenFile _ _ := .ok 0

/-- Recorder environment for Open: the underlying os.OpenFile returns the flag
word it was invoked with as the handle, so the value of a successful open
shows exactly which flags reached the plaintext file. -/
def RW : ReverseFSModel where
  decryptPath s := .ok s
  encryptPath s := .ok s
  loopbackGetAttr _ := .error .ENOENT
  loopbackOpenDir _ := .error .ENOENT
  absPath s := s
  sysAccess _ _ := .OK
  osOpenFile _ flags := .ok flags

/-- A concrete config file wrapped under password 11 with salt 3 and master
key 99. -/
def cfW : ConfFile := ⟨3, deriveKek 11 3, 99⟩

/-! Claim theorems. -/

/-- Claim C1: for every relative path recognized as the virtual directory IV
file, GetAttr synthesizes the attributes from the parent directory: a regular
file of read only owner mode (DirIVMode = S_IFREG plus 0400), size equal to
the IV length DirIVLen = 16, and link count 1, provided the parent exists
(its underlying GetAttr succeeds after path decryption), is a directory and
carries the owner execute bit; a non directory parent yields ENOTDIR and a
directory parent without the execute bit yields EPERM. -/
theorem getAttr_dirIV_synthesizes (m : ReverseFSModel) (relPath : String)
    (hrec : (relPath == DirIVFilename || goHasSuffix relPath DirIVFilename) = true)
    (d : String) (hd : m.decryptPath (dirIVParent relPath) = .ok d)
    (a : Attr) (ha : m.loopbackGetAttr d = .ok a) :
    reverseGetAttr m relPath =
      if attrIsDir a then
        (if Nat.land a.mode S_IXUSR == 0 then .error .EPERM
         else .ok { a with mode := DirIVMode, size := DirIVLen, nlink := 1 })
      else .error .ENOTDIR := by
  unfold reverseGetAttr getAttrDirIV
  simp only [hrec, hd, ha, if_true]
  cases hdir : attrIsDir a
  · simp [hdir]
  · simp [hdir]

/-- Witness for C1: in the concrete environment, GetAttr on the root level
diriv path returns the root directory record with mode, size and nlink
overwritten. -/
theorem getAttr_dirIV_synthesizes_w :
    reverseGetAttr Wfs "gocryptfs.diriv" =
      .ok ⟨1, 16, 8, 100, 101, 102, 33024, 1, 1000, 1000, 0⟩ :=
  (getAttr_dirIV_synthesizes Wfs "gocryptfs.diriv" (by decide) "" rfl rootAttr rfl).trans
    (by rfl)

/-- Claim C2: for an ordinary path (not recognized as the diriv file, not
excluded) on which path decryption and the underlying GetAttr succeed, the
overlay returns the underlying attribute record with exactly one change: a
regular file size becomes plainSizeToCipherSize of the real size, and the
record of a non regular entry is forwarded unchanged. -/
theorem getAttr_ordinary_forwards (m : ReverseFSModel) (relPath : String)
    (hdiv : (relPath == DirIVFilename || goHasSuffix relPath DirIVFilename) = false)
    (hf : isFiltered relPath = false)
    (p : String) (hp : m.decryptPath relPath = .ok p)
    (a : Attr) (ha : m.loopbackGetAttr p = .ok a) :
    reverseGetAttr m relPath =
      .ok (if attrIsRegular a then { a with size := plainSizeToCipherSize a.size }
           else a) := by
  unfold reverseGetAttr
  simp only [hdiv, hf, hp, ha, if_false]
  cases hreg : attrIsRegular a
  · simp [hreg]
  · simp [hreg]

/-- Witness for C2: in the concrete environment, GetAttr on the regular file
a.txt of plaintext size 1000 reports the ciphertext size 4142 and leaves the
other fields untouched. -/
theorem getAttr_ordinary_forwards_w :
    reverseGetAttr Wfs "a.txt" =
      .ok ⟨2, 4142, 8, 200, 201, 202, 33188, 1, 1000, 1000, 0⟩ :=
  (getAttr_ordinary_forwards Wfs "a.txt" (by decide) (by decide) "a.txt" rfl fileAttr
    rfl).trans (by rfl)

/-- Characterization of the OpenDir name encryption loop: a successful run
relates input and output entries pointwise and in order, each output name the
encryption of the input name and each mode forwarded. -/
theorem encryptEntries_forall2 (m : ReverseFSModel) :
    ∀ l es : List DirEntry, encryptEntries m l = .ok es →
      List.Forall₂ (fun e ce => m.encryptPath e.name = .ok ce.name ∧ ce.mode = e.mode) l es := by
  intro l
  induction l with
  | nil =>
    intro es h
    simp only [encryptEntries] at h
    cases h
    exact .nil
  | cons e rest ih =>
    intro es h
    simp only [encryptEntries] at h
    rcases hn : m.encryptPath e.name with s | n
    · simp only [hn] at h
      exact Except.noConfusion h
    · simp only [hn] at h
      rcases hr : encryptEntries m rest with s | rs
      · simp only [hr] at h
        exact Except.noConfusion h
      · simp only [hr] at h
        cases h
        exact .cons ⟨hn, rfl⟩ (ih rs hr)

/-- Claim C3: when the underlying listing (and the per name encryption)
succeeds, the overlay listing is exactly the encrypted underlying entries in
host order plus one synthetic diriv entry appended: the length grows by one,
each output entry corresponds pointwise to an input entry, and, as long as no
encrypted name equals the IV filename, the diriv entry appears exactly once. -/
theorem openDir_encrypts_appends_dirIV (m : ReverseFSModel) (relPath q : String)
    (hq : m.decryptPath relPath = .ok q)
    (entries : List DirEntry) (he : m.loopbackOpenDir q = .ok entries)
    (es : List DirEntry) (hes : encryptEntries m entries = .ok es)
    (hnd : ∀ e ∈ es, e.name ≠ DirIVFilename) :
    reverseOpenDir m relPath = .ok (es ++ [{ mode := DirIVMode, name := DirIVFilename }])
    ∧ (es ++ [({ mode := DirIVMode, name := DirIVFilename } : DirEntry)]).length =
        entries.length + 1
    ∧ List.Forall₂ (fun e ce => m.encryptPath e.name = .ok ce.name ∧ ce.mode = e.mode)
        entries es
    ∧ (es ++ [({ mode := DirIVMode, name := DirIVFilename } : DirEntry)]).countP
        (fun e => e.name == DirIVFilename) = 1 := by
  have hf2 := encryptEntries_forall2 m entries es hes
  refine ⟨?_, ?_, hf2, ?_⟩
  · unfold reverseOpenDir
    simp only [hq, he, hes]
  · have hlen := List.Forall₂.length_eq hf2
    simp [hlen]
  · rw [List.countP_append]
    have h0 : es.countP (fun e => e.name == DirIVFilename) = 0 := by
      rw [List.countP_eq_zero]
      intro e he2
      simpa using hnd e he2
    rw [h0]
    simp

/-- Witness for C3: listing the root of the concrete tree yields the two
encrypted entries in host order followed by the synthetic diriv entry. -/
theorem openDir_encrypts_appends_dirIV_w :
    reverseOpenDir Wfs "" =
      .ok [⟨33188, "Ea.txt"⟩, ⟨16877, "Esub"⟩, ⟨33024, "gocryptfs.diriv"⟩] := by
  have h := openDir_encrypts_appends_dirIV Wfs "" "" rfl
    [⟨33188, "a.txt"⟩, ⟨16877, "sub"⟩] rfl
    [⟨33188, "Ea.txt"⟩, ⟨16877, "Esub"⟩] rfl (by decide)
  exact h.1.trans (by rfl)

/-- Counterexample to C4 as stated: the excluded config file is not hidden
from the directory listing. In the CM tree the root holds gocryptfs.conf,
which isFiltered marks excluded; OpenDir of the root nevertheless returns an
entry for it under its encrypted name, and GetAttr on that listed name then
returns its real (size adjusted) attributes instead of PermissionDenied or
NotFound, so the internal configuration does surface in the encrypted view. -/
theorem openDir_reveals_filtered_entry :
    isFiltered "gocryptfs.conf" = true
    ∧ reverseOpenDir CM "" =
        .ok [⟨33188, "Egocryptfs.conf"⟩, ⟨33024, "gocryptfs.diriv"⟩]
    ∧ reverseGetAttr CM "Egocryptfs.conf" =
        .ok ⟨5, 4142, 8, 50, 51, 52, 33188, 1, 0, 0, 0⟩ :=
  ⟨by decide, by rfl, by rfl⟩

/-- Amended C4: GetAttr, Open and Access do hide a path matching the exclusion
policy, returning PermissionDenied; the directory listing applies no exclusion
filtering at all (shown false by the counterexample for the claim as stated). -/
theorem filtered_hidden_getattr_open_access (m : ReverseFSModel) (p : String)
    (hf : isFiltered p = true) (flags mode : Nat) :
    reverseGetAttr m p = .error .EPERM
    ∧ reverseOpen m p flags = .error .EPERM
    ∧ reverseAccess m p mode = .EPERM := by
  have hp : p = ConfDefaultName := eq_of_beq hf
  subst hp
  refine ⟨?_, ?_, ?_⟩
  · unfold reverseGetAttr
    have hcond : (ConfDefaultName == DirIVFilename
        || goHasSuffix ConfDefaultName DirIVFilename) = false := by decide
    simp [hcond, isFiltered]
  · unfold reverseOpen
    simp [isFiltered]
  · unfold reverseAccess
    simp [isFiltered]

/-- Witness for the amended C4 in the concrete environment. -/
theorem filtered_hidden_getattr_open_access_w :
    reverseGetAttr Wfs "gocryptfs.conf" = .error .EPERM
    ∧ reverseOpen Wfs "gocryptfs.conf" 0 = .error .EPERM
    ∧ reverseAccess Wfs "gocryptfs.conf" 4 = .EPERM :=
  filtered_hidden_getattr_open_access Wfs "gocryptfs.conf" (by decide) 0 4

/-- C5 fails on the code: Access translates the incoming path with encryptPath
while GetAttr and Open use decryptPath, and it has no special case for the
virtual diriv file. In M5 the underlying access check grants exactly the path
the decrypt direction yields for the name a, so the behaviour the spec
describes (specAccess, the decrypt direction) succeeds while reverseAccess,
which asks about the encrypt direction path, is denied; a request against the
diriv path is likewise just encrypt translated and denied, with no parent
execute rule. -/
theorem access_uses_encrypt_direction :
    specAccess M5 "a" 4 = .OK
    ∧ reverseAccess M5 "a" 4 = .EACCES
    ∧ reverseAccess M5 "gocryptfs.diriv" 1 = .EACCES :=
  ⟨by rfl, by rfl, by rfl⟩

/-- C6 fails on the code: Open forwards the caller flags verbatim to
os.OpenFile on the underlying plaintext file. In the recorder environment RW
the handle returned equals the flag word the environment received, so opening
with O_WRONLY = 1, and with O_WRONLY plus O_CREAT plus O_TRUNC = 577, reaches
the plaintext file with write access requested: the overlay does grant write
access to the underlying tree. -/
theorem open_forwards_write_flags :
    reverseOpen RW "a.txt" 1 = .ok 1 ∧ reverseOpen RW "a.txt" 577 = .ok 577 :=
  ⟨rfl, rfl⟩

/-- Claim C7: changePassword wraps exactly the master key recovered by loading
with the old password; the master key value is unchanged by the operation, so
loading the rewritten config with the new password recovers the same key. -/
theorem changePassword_preserves_masterkey (cf : ConfFile) (oldPw newPw salt : Nat)
    (out : List String) (mk : Nat) (cf0 : ConfFile)
    (h : loadConfig (some cf) oldPw = .ok out mk cf0) :
    changePassword (some cf) oldPw newPw salt = some (encryptKey cf0 mk newPw salt)
    ∧ loadConfFile (encryptKey cf0 mk newPw salt) newPw =
        .ok (mk, encryptKey cf0 mk newPw salt) := by
  constructor
  · unfold changePassword
    simp only [h]
  · unfold loadConfFile decryptKey encryptKey
    simp

/-- Witness for C7: changing the password of the concrete config from 11 to 22
keeps the master key 99 recoverable under the new password. -/
theorem changePassword_preserves_masterkey_w :
    changePassword (some cfW) 11 22 7 = some (encryptKey cfW 99 22 7)
    ∧ loadConfFile (encryptKey cfW 99 22 7) 22 = .ok (99, encryptKey cfW 99 22 7) :=
  changePassword_preserves_masterkey cfW 11 22 7
    ["Password: ", "Decrypting master key... ", "done."] 99 cfW rfl

/-- Counterexample to C8 as stated: two failing loads with different causes
produce different observable output. A missing config file prints only the
stat error and never the wrong password line, while a wrong password prints
the prompt lines, the unwrap error and the wrong password line; only the exit
code coincides. -/
theorem loadConfig_output_distinguishes_cause :
    loadConfig none 11 = .exited ["no such file or directory"] 8
    ∧ loadConfig (some cfW) 12 =
        .exited ["Password: ", "Decrypting master key... ",
          "WrongPassword", "Wrong password."] 8
    ∧ (["no such file or directory"] : List String) ≠
        ["Password: ", "Decrypting master key... ", "WrongPassword", "Wrong password."] :=
  ⟨by rfl, by rfl, by decide⟩

/-- Amended C8: once the config file exists, every load failure is reported
uniformly, with the WrongPassword error, the fixed wrong password line and
exit code 8 independent of the cause; a missing config file exits with the
same code but with different output, namely the stat error alone. -/
theorem loadConfig_uniform_given_file (cf : ConfFile) (pw pw2 : Nat) (err : String)
    (h : loadConfFile cf pw = .error err) :
    err = "WrongPassword"
    ∧ loadConfig (some cf) pw =
        .exited ["Password: ", "Decrypting master key... ",
          "WrongPassword", "Wrong password."] 8
    ∧ loadConfig none pw2 = .exited ["no such file or directory"] 8 := by
  have herr : err = "WrongPassword" := by
    unfold loadConfFile at h
    rcases hdk : decryptKey cf pw with e | mk
    · simp only [hdk] at h
      cases h
      unfold decryptKey at hdk
      split at hdk
      · exact Except.noConfusion hdk
      · cases hdk
        rfl
    · simp only [hdk] at h
      exact Except.noConfusion h
  refine ⟨herr, ?_, rfl⟩
  unfold loadConfig
  simp only [h, herr]
  rfl

/-- Witness for the amended C8 at a concrete wrong password. -/
theorem loadConfig_uniform_given_file_w :
    ("WrongPassword" : String) = "WrongPassword"
    ∧ loadConfig (some cfW) 12 =
        .exited ["Password: ", "Decrypting master key... ",
          "WrongPassword", "Wrong password."] 8
    ∧ loadConfig none 5 = .exited ["no such file or directory"] 8 :=
  loadConfig_uniform_given_file cfW 12 5 "WrongPassword" rfl

/-- Claim C9: GetAttr classifies any path that merely ends with the directory
IV filename as the virtual IV file: it takes the diriv branch, and whatever
that branch returns successfully carries the synthesized mode, size and link
count, never the real attributes of an underlying entry of that name. -/
theorem getAttr_suffix_takes_dirIV_branch (m : ReverseFSModel) (p : String)
    (h : goHasSuffix p DirIVFilename = true) :
    reverseGetAttr m p = getAttrDirIV m p
    ∧ ∀ a : Attr, getAttrDirIV m p = .ok a →
        a.mode = DirIVMode ∧ a.size = DirIVLen ∧ a.nlink = 1 := by
  constructor
  · unfold reverseGetAttr
    simp [h]
  · intro a ha
    unfold getAttrDirIV at ha
    rcases hd : m.decryptPath (dirIVParent p) with e | dir
    · simp only [hd] at ha
      exact Except.noConfusion ha
    · simp only [hd] at ha
      rcases hg : m.loopbackGetAttr dir with s | pa
      · simp only [hg] at ha
        exact Except.noConfusion ha
      · simp only [hg] at ha
        split at ha
        · exact Except.noConfusion ha
        · split at ha
          · exact Except.noConfusion ha
          · cases ha
            simp

/-- Witness for C9: the name xgocryptfs.diriv differs from the IV filename yet
merely ends with it; GetAttr synthesizes the virtual record from the root
directory instead of reporting any real entry of that name. -/
theorem getAttr_suffix_takes_dirIV_branch_w :
    reverseGetAttr Wfs "xgocryptfs.diriv" =
      .ok ⟨1, 16, 8, 100, 101, 102, 33024, 1, 1000, 1000, 0⟩ :=
  ((getAttr_suffix_takes_dirIV_branch Wfs "xgocryptfs.diriv" (by decide)).1).trans (by rfl)

/-- Claim C10: the synthesized diriv attributes are the parent directory
record with only mode, size and nlink overwritten; inode, ownership,
timestamps and every remaining field are exactly those of the parent. -/
theorem getAttr_dirIV_frame (m : ReverseFSModel) (p : String)
    (hrec2 : (p == DirIVFilename || goHasSuffix p DirIVFilename) = true)
    (d : String) (hd2 : m.decryptPath (dirIVParent p) = .ok d)
    (pa : Attr) (ha2 : m.loopbackGetAttr d = .ok pa)
    (hdir : attrIsDir pa = true)
    (hx : (Nat.land pa.mode S_IXUSR == 0) = false) :
    reverseGetAttr m p = .ok { pa with mode := DirIVMode, size := DirIVLen, nlink := 1 } := by
  unfold reverseGetAttr getAttrDirIV
  simp [hrec2, hd2, ha2, hdir, hx]

/-- Witness for C10: the diriv file of the subdirectory sub inherits inode 3,
the timestamps 300, 301, 302 and ownership of sub, with only mode, size and
nlink replaced. -/
theorem getAttr_dirIV_frame_w :
    reverseGetAttr Wfs "sub/gocryptfs.diriv" =
      .ok ⟨3, 16, 8, 300, 301, 302, 33024, 1, 1000, 1000, 0⟩ :=
  (getAttr_dirIV_frame Wfs "sub/gocryptfs.diriv" (by decide) "sub" rfl subAttr rfl
    (by decide) (by decide)).trans (by rfl)

end Gocryptfs
